import Mathlib

/-!
# Mapty workout logger: shallow embedding of `src/script.js`

This file embeds the object model and the persistence/interaction handlers of
the Mapty client-side workout logger in Lean 4 and proves (or refutes) the
specification claims about them.

Modelling conventions:
* JavaScript numbers are modelled as `JNum`: either a finite rational or one
  of the special values `NaN`, `Infinity`, `-Infinity`.  Division follows the
  JavaScript rules on these representatives.
* A `Date` object is modelled by the observations the program makes of it:
  `Date.now()` / its epoch milliseconds, `getMonth()`, `getDate()` and the ISO
  string `JSON.stringify` produces for it (`toJSON`).
* `localStorage` content is text; we model the stored text by its parse
  outcome: `StoreVal.wellFormed j` stands for text that `JSON.parse` turns
  into the JSON value `j`, and `StoreVal.malformed s` for text `s` on which
  `JSON.parse` throws a `SyntaxError`.
* JavaScript exceptions are modelled with `Except String`; an `alert` call
  plus early return is recorded in the handler result.
-/

/-- A JavaScript number: a finite rational, or NaN, or a signed infinity. -/
inductive JNum where
  | fin (q : ℚ)
  | nan
  | posInf
  | negInf
deriving DecidableEq

/-- `Number.isFinite`. -/
def JNum.isFinite : JNum → Bool
  | .fin _ => true
  | _ => false

/-- The JavaScript comparison `x > 0`.  `NaN > 0` is false, `Infinity > 0`
is true. -/
def JNum.gtZero : JNum → Bool
  | .fin q => decide (0 < q)
  | .nan => false
  | .posInf => true
  | .negInf => false

/-- JavaScript division `a / b` on the modelled numbers: division by zero
yields a signed infinity (or NaN for `0 / 0`), NaN is absorbing, and
infinities follow the IEEE rules. -/
def jdiv : JNum → JNum → JNum
  | .fin a, .fin b =>
      if b = 0 then (if a = 0 then .nan else if 0 < a then .posInf else .negInf)
      else .fin (a / b)
  | .fin _, .posInf => .fin 0
  | .fin _, .negInf => .fin 0
  | .posInf, .fin b => if 0 ≤ b then .posInf else .negInf
  | .negInf, .fin b => if 0 ≤ b then .negInf else .posInf
  | .posInf, .posInf => .nan
  | .posInf, .negInf => .nan
  | .negInf, .posInf => .nan
  | .negInf, .negInf => .nan
  | .nan, _ => .nan
  | _, .nan => .nan

/-- The decimal digit character for `d` (`0 ≤ d ≤ 9`): code point `48 + d`. -/
def decChar (d : Nat) : Char := Char.ofNat (48 + d)

/-- Fuel-driven decimal digit list of a natural number, most significant digit
first.  The fuel only bounds the recursion depth; `decDigits` always supplies
enough of it. -/
def decDigitsAux : Nat → Nat → List Char
  | 0, _ => []
  | fuel + 1, n =>
      if n < 10 then [decChar n]
      else decDigitsAux fuel (n / 10) ++ [decChar (n % 10)]

/-- The decimal digits of `n`, most significant first: the characters of the
JavaScript string `n + ''` for a nonnegative integer `n`. -/
def decDigits (n : Nat) : List Char := decDigitsAux (n + 1) n

/-- JavaScript number-to-string coercion for the nonnegative integers the
program converts (`Date.now() + ''`, `${date.getDate()}`). -/
def numToStr (n : Nat) : String := (decDigits n).asString

/-- The last `k` decimal digits of `r` (with leading zeros), most significant
first: the shape of a fixed-width decimal suffix. -/
def padDigits : Nat → Nat → List Char
  | 0, _ => []
  | k + 1, r => padDigits k (r / 10) ++ [decChar (r % 10)]

/-- `id = (Date.now() + '').slice(-10)` (script.js line 8): the last ten
characters of the decimal string of the creation timestamp (the whole string
when it is shorter than ten characters). -/
def workoutId (nowMs : Nat) : String :=
  ((decDigits nowMs).drop ((decDigits nowMs).length - 10)).asString

/-- A JavaScript `Date` object, modelled by the observations the program
makes of it: its epoch milliseconds (`Date.now()` at creation), `getMonth()`
(0-based), `getDate()` (day of month) and the ISO string that
`JSON.stringify` serialises it to. -/
structure JsDate where
  epochMs : Nat
  month : Fin 12
  day : Nat
  iso : String
deriving DecidableEq

/-- The month-name table of `Workout._setDescription` (script.js lines
19–32). -/
def months : List String :=
  ["January", "February", "March", "April", "May", "June", "July",
   "August", "September", "October", "November", "December"]

/-- `months[date.getMonth()]`.  `getMonth()` is always in `0..11`, so the
default of `getD` is unreachable. -/
def monthName (m : Fin 12) : String := months.getD m.val "undefined"

/-- `type[0].toUpperCase() + type.slice(1)`: capitalise the first character. -/
def capFirst (s : String) : String :=
  match s.data with
  | [] => ""
  | c :: rest => (c.toUpper :: rest).asString

/-- `Workout._setDescription` (script.js lines 17–38): the description string
built from the variant type and the creation date. -/
def setDescription (ty : String) (d : JsDate) : String :=
  capFirst ty ++ " on " ++ monthName d.month ++ " " ++ numToStr d.day

/-- The variant-specific fields: `cadence`/`pace` for a `Running` workout,
`elevationGain`/`speed` for a `Cycling` workout. -/
inductive VariantData where
  | running (cadence pace : JNum)
  | cycling (elevationGain speed : JNum)
deriving DecidableEq

/-- The `type` field value of each variant. -/
def typeStr : VariantData → String
  | .running _ _ => "running"
  | .cycling _ _ => "cycling"

/-- A workout entity: the fields a `Running` or `Cycling` instance carries
after construction (script.js lines 6–83). -/
structure Workout where
  date : JsDate
  id : String
  clicks : Nat
  coords : JNum × JNum
  distance : JNum
  duration : JNum
  vdata : VariantData
  description : String
deriving DecidableEq

/-- `Running.calcPace` (script.js lines 58–62): `pace = duration / distance`. -/
def calcPace (duration distance : JNum) : JNum := jdiv duration distance

/-- `Cycling.calcSpeed` (script.js lines 78–82):
`speed = distance / (duration / 60)`. -/
def calcSpeed (distance duration : JNum) : JNum :=
  jdiv distance (jdiv duration (.fin 60))

/-- `new Running(coords, distance, duration, cadence)` (script.js lines
48–63): field initialisers, then the constructor body, computing the pace and
the description immediately. -/
def mkRunning (now : JsDate) (coords : JNum × JNum)
    (distance duration cadence : JNum) : Workout :=
  { date := now
    id := workoutId now.epochMs
    clicks := 0
    coords := coords
    distance := distance
    duration := duration
    vdata := .running cadence (calcPace duration distance)
    description := setDescription "running" now }

/-- `new Cycling(coords, distance, duration, elevationGain)` (script.js lines
68–83). -/
def mkCycling (now : JsDate) (coords : JNum × JNum)
    (distance duration elevationGain : JNum) : Workout :=
  { date := now
    id := workoutId now.epochMs
    clicks := 0
    coords := coords
    distance := distance
    duration := duration
    vdata := .cycling elevationGain (calcSpeed distance duration)
    description := setDescription "cycling" now }

/-- `Workout.click` (script.js lines 40–42): `this.clicks++`. -/
def Workout.click (w : Workout) : Workout := { w with clicks := w.clicks + 1 }

/-- A JSON value, the possible results of `JSON.parse`. -/
inductive Js where
  | null
  | bool (b : Bool)
  | num (q : ℚ)
  | str (s : String)
  | arr (l : List Js)
  | obj (fields : List (String × Js))

/-- A JavaScript runtime value, as far as the program observes them: the JSON
values plus `Date` objects and `undefined`.  Used to compare a live field
value with its reloaded counterpart. -/
inductive JsVal where
  | null
  | bool (b : Bool)
  | num (n : JNum)
  | str (s : String)
  | date (d : JsDate)
  | arr (l : List JsVal)
  | obj (fields : List (String × JsVal))
  | undef

/-- The inclusion of parsed JSON values into runtime values. -/
def Js.toVal : Js → JsVal
  | .null => .null
  | .bool b => .bool b
  | .num q => .num (.fin q)
  | .str s => .str s
  | .arr l => .arr (l.attach.map fun x => x.1.toVal)
  | .obj fields => .obj (fields.attach.map fun x => (x.1.1, x.1.2.toVal))
decreasing_by
  · simp only [Js.arr.sizeOf_spec]
    have := List.sizeOf_lt_of_mem x.2
    omega
  · simp only [Js.obj.sizeOf_spec]
    obtain ⟨⟨a, b⟩, hmem⟩ := x
    have := List.sizeOf_lt_of_mem hmem
    simp only [Prod.mk.sizeOf_spec] at this
    simp only []
    omega

/-- Property access `j[k]` on a parsed JSON value: `undefined` (here `none`)
when the value is not an object or lacks the key. -/
def objGet (k : String) : Js → Option Js
  | .obj fields => fields.lookup k
  | _ => none

/-- JavaScript falsiness of a parsed JSON value (`if (!data) return`). -/
def falsy : Js → Bool
  | .null => true
  | .bool b => !b
  | .num q => q == 0
  | .str s => s == ""
  | .arr _ => false
  | .obj _ => false

/-- `JSON.stringify` on a number: finite numbers are kept, `NaN` and the
infinities serialise to `null`. -/
def encodeJNum : JNum → Js
  | .fin q => .num q
  | _ => .null

/-- `JSON.stringify` on a live workout instance: its own enumerable fields in
insertion order; the `Date` serialises to its ISO string. -/
def encodeWorkout (w : Workout) : Js :=
  match w.vdata with
  | .running cadence pace =>
      .obj [("date", .str w.date.iso), ("id", .str w.id),
            ("clicks", .num (w.clicks : ℚ)),
            ("coords", .arr [encodeJNum w.coords.1, encodeJNum w.coords.2]),
            ("distance", encodeJNum w.distance),
            ("duration", encodeJNum w.duration),
            ("type", .str "running"),
            ("cadence", encodeJNum cadence), ("pace", encodeJNum pace),
            ("description", .str w.description)]
  | .cycling elevationGain speed =>
      .obj [("date", .str w.date.iso), ("id", .str w.id),
            ("clicks", .num (w.clicks : ℚ)),
            ("coords", .arr [encodeJNum w.coords.1, encodeJNum w.coords.2]),
            ("distance", encodeJNum w.distance),
            ("duration", encodeJNum w.duration),
            ("type", .str "cycling"),
            ("elevationGain", encodeJNum elevationGain),
            ("speed", encodeJNum speed),
            ("description", .str w.description)]

/-- One entry of the `#workouts` array under `JSON.stringify`: a real workout
serialises to its object, an `undefined` entry serialises to `null`. -/
def encodeEntry : Option Workout → Js
  | some w => encodeWorkout w
  | none => .null

/-- The text stored under the `'workouts'` key, modelled by its parse
outcome: `wellFormed j` is text `JSON.parse` turns into `j`, `malformed s` is
text `s` on which `JSON.parse` throws. -/
inductive StoreVal where
  | wellFormed (j : Js)
  | malformed (s : String)

/-- `JSON.parse(localStorage.getItem('workouts'))`: a missing key yields
`null` (so the parse result is `null`), well-formed text yields its value,
malformed text throws a `SyntaxError`. -/
def jsonParse : Option StoreVal → Except String Js
  | none => .ok .null
  | some (.wellFormed j) => .ok j
  | some (.malformed s) =>
      .error ("SyntaxError: Unexpected token in JSON: " ++ s)

/-- `App._setLocalStorage` (script.js lines 337–339):
`localStorage.setItem('workouts', JSON.stringify(this.#workouts))`. -/
def setLocalStorage (ws : List (Option Workout)) : StoreVal :=
  .wellFormed (.arr (ws.map encodeEntry))

/-- `App._renderWorkout` applied to a reloaded entry, reduced to the property
accesses that can throw: `workout.type` throws on `null`; when the `type`
field is the string `"running"` (resp. `"cycling"`), `workout.pace.toFixed(1)`
(resp. `workout.speed.toFixed(1)`) throws unless that field is a number. -/
def renderLoadedObj (j : Js) : Except String Unit :=
  match objGet "type" j with
  | some (.str ty) =>
      if ty = "running" then
        match objGet "pace" j with
        | some (.num _) => .ok ()
        | _ => .error "TypeError: workout.pace.toFixed is not a function"
      else if ty = "cycling" then
        match objGet "speed" j with
        | some (.num _) => .ok ()
        | _ => .error "TypeError: workout.speed.toFixed is not a function"
      else .ok ()
  | _ => .ok ()

/-- Rendering one reloaded entry: reading `.type` of `null` throws. -/
def renderLoaded : Js → Except String Unit
  | .null => .error "TypeError: Cannot read properties of null (reading type)"
  | j => renderLoadedObj j

/-- `data.forEach(work => this._renderWorkout(work))`: render each entry in
order, stopping at the first thrown error. -/
def renderAll : List Js → Except String Unit
  | [] => .ok ()
  | j :: rest =>
      match renderLoaded j with
      | .ok _ => renderAll rest
      | .error e => .error e

/-- `App._getLocalStorage` (script.js lines 341–351): parse the stored text
(a parse error propagates), return with no workouts when the result is falsy,
otherwise install the parsed value as `#workouts` and render each entry
(`forEach` throws on a non-array, rendering throws on unusable entries). -/
def getLocalStorage (stored : Option StoreVal) : Except String (List Js) :=
  match jsonParse stored with
  | .error e => .error e
  | .ok v =>
      if falsy v then .ok []
      else
        match v with
        | .arr l =>
            match renderAll l with
            | .ok _ => .ok l
            | .error e => .error e
        | _ => .error "TypeError: data.forEach is not a function"

/-- The raw form field values after the unary `+` coercion, plus the selected
variant type (`App._newWorkout`, script.js lines 196–199). -/
structure FormInput where
  ty : String
  distance : JNum
  duration : JNum
  cadence : JNum
  elevation : JNum

/-- The observable outcome of one `_newWorkout` invocation: the `#workouts`
array, the `'workouts'` storage key, whether the validation `alert` fired,
and an uncaught exception if one aborted the handler. -/
structure HandlerResult where
  workouts : List (Option Workout)
  storage : Option StoreVal
  alerted : Bool
  err : Option String
deriving Nonempty

/-- `validInputs(...inputs)` (script.js lines 192–193): every input is a
finite number. -/
def validInputs (inputs : List JNum) : Bool := inputs.all JNum.isFinite

/-- `allPositive(...inputs)` (script.js line 194): every input is `> 0`. -/
def allPositive (inputs : List JNum) : Bool := inputs.all JNum.gtZero

/-- `App._newWorkout` (script.js lines 188–242).  For `type == 'running'`
validate distance, duration, cadence (finite and positive) and alert-return
on failure; for `type === 'cycling'` validate distance, duration, elevation
finite and distance, duration positive; for any other type no branch runs and
`workout` stays `undefined`.  Then the workout is pushed, the marker is
rendered (`workout.coords` throws when `workout` is `undefined`, aborting
before the storage write), and finally the collection is serialised. -/
def newWorkout (now : JsDate) (lat lng : JNum) (ws : List (Option Workout))
    (st : Option StoreVal) (inp : FormInput) : HandlerResult :=
  if inp.ty = "running" then
    if !validInputs [inp.distance, inp.duration, inp.cadence] ||
       !allPositive [inp.distance, inp.duration, inp.cadence] then
      ⟨ws, st, true, none⟩
    else
      let w := mkRunning now (lat, lng) inp.distance inp.duration inp.cadence
      ⟨ws ++ [some w], some (setLocalStorage (ws ++ [some w])), false, none⟩
  else if inp.ty = "cycling" then
    if !validInputs [inp.distance, inp.duration, inp.elevation] ||
       !allPositive [inp.distance, inp.duration] then
      ⟨ws, st, true, none⟩
    else
      let w := mkCycling now (lat, lng) inp.distance inp.duration inp.elevation
      ⟨ws ++ [some w], some (setLocalStorage (ws ++ [some w])), false, none⟩
  else
    ⟨ws ++ [none], st, false,
     some "TypeError: Cannot read properties of undefined (reading coords)"⟩

/-- `this.#workouts.find(work => work.id === workoutEl.dataset.id)`
(script.js lines 323–325): a linear scan; reading `.id` of an `undefined`
entry throws. -/
def jsFind : List (Option Workout) → String → Except String (Option Workout)
  | [], _ => .ok none
  | none :: _, _ =>
      .error "TypeError: Cannot read properties of undefined (reading id)"
  | some w :: rest, tid =>
      if w.id = tid then .ok (some w) else jsFind rest tid

/-- `App._moveToPopup` (script.js lines 319–332): return the unchanged
collection together with the outcome — an early return when the click hits no
workout element, otherwise the `setView` target coordinates, with
`workout.coords` throwing when the id resolved to no workout. -/
def moveToPopup (ws : List (Option Workout)) (target : Option String) :
    List (Option Workout) × Except String (Option (JNum × JNum)) :=
  (ws,
   match target with
   | none => .ok none
   | some tid =>
       match jsFind ws tid with
       | .error e => .error e
       | .ok none =>
           .error "TypeError: Cannot read properties of undefined (reading coords)"
       | .ok (some w) => .ok (some w.coords))

/-- The derived metric of a workout is a finite number (true of every workout
the constructors build from validated input; reloading a record whose derived
field is not a number aborts rendering). -/
def derivedFinite (w : Workout) : Bool :=
  match w.vdata with
  | .running _ pace => pace.isFinite
  | .cycling _ speed => speed.isFinite

/-- A fixed sample creation date with a small timestamp (decimal string
`"123"`), July 14. -/
def sampleDate : JsDate :=
  { epochMs := 123, month := 6, day := 14, iso := "1970-01-01T00:00:00.123Z" }

/-- A fixed sample running workout built by the constructor. -/
def sampleRun : Workout :=
  mkRunning sampleDate (.fin 40, .fin (-74)) (.fin 5) (.fin 30) (.fin 170)

/-- `sampleRun` with its derived pace field tampered to `999` before saving
(the genuine pace would be `6`). -/
def tamperedRun : Workout :=
  { sampleRun with vdata := .running (.fin 170) (.fin 999) }

/-- Entry check used to state that an id misses every element of a collection
of defined workouts. -/
def okEntry (tid : String) : Option Workout → Bool
  | some w => w.id != tid
  | none => false

/-! ## Digit-string lemmas for the timestamp-derived id -/

theorem decDigitsAux_congr (f : Nat) : ∀ (g n : Nat), n < f → n < g →
    decDigitsAux f n = decDigitsAux g n := by
  induction f with
  | zero => intro g n hf _; omega
  | succ f ih =>
    intro g n hf hg
    cases g with
    | zero => omega
    | succ g =>
      simp only [decDigitsAux]
      by_cases h : n < 10
      · simp [h]
      · rw [if_neg h, if_neg h]
        have h1 : n / 10 < f := by omega
        have h2 : n / 10 < g := by omega
        rw [ih g (n / 10) h1 h2]

theorem decDigits_small (n : Nat) (h : n < 10) : decDigits n = [decChar n] := by
  unfold decDigits
  simp only [decDigitsAux]
  rw [if_pos h]

theorem decDigits_step (n : Nat) (h : 10 ≤ n) :
    decDigits n = decDigits (n / 10) ++ [decChar (n % 10)] := by
  unfold decDigits
  simp only [decDigitsAux]
  rw [if_neg (by omega)]
  congr 1
  exact decDigitsAux_congr n (n / 10 + 1) (n / 10) (by omega) (by omega)

theorem decDigits_append (k : Nat) : ∀ (a r : Nat), 0 < a → r < 10 ^ k →
    decDigits (a * 10 ^ k + r) = decDigits a ++ padDigits k r := by
  induction k with
  | zero =>
    intro a r _ hr
    simp only [pow_zero] at hr
    have : r = 0 := by omega
    subst this
    simp [padDigits]
  | succ k ih =>
    intro a r ha hr
    have hp : (10 : Nat) ^ (k + 1) = 10 * 10 ^ k := by ring
    have hpk : 0 < (10 : Nat) ^ k := Nat.pos_pow_of_pos k (by norm_num)
    have hten : 10 ≤ a * 10 ^ (k + 1) + r := by
      have h1 : 10 * 10 ^ k ≤ a * (10 * 10 ^ k) := Nat.le_mul_of_pos_left _ ha
      rw [hp]
      omega
    rw [decDigits_step _ hten]
    have hdiv : (a * 10 ^ (k + 1) + r) / 10 = a * 10 ^ k + r / 10 := by
      rw [hp, show a * (10 * 10 ^ k) = 10 * (a * 10 ^ k) by ring]
      omega
    have hmod : (a * 10 ^ (k + 1) + r) % 10 = r % 10 := by
      rw [hp, show a * (10 * 10 ^ k) = 10 * (a * 10 ^ k) by ring]
      omega
    have hr' : r / 10 < 10 ^ k := by
      rw [hp] at hr
      omega
    rw [hdiv, hmod, ih a (r / 10) ha hr']
    show _ = decDigits a ++ (padDigits k (r / 10) ++ [decChar (r % 10)])
    rw [List.append_assoc]

theorem padDigits_length (k : Nat) : ∀ r, (padDigits k r).length = k := by
  induction k with
  | zero => intro r; rfl
  | succ k ih => intro r; simp [padDigits, ih]

theorem decChar_inj : ∀ d, d < 10 → ∀ e, e < 10 → decChar d = decChar e → d = e := by
  decide

theorem padDigits_inj (k : Nat) : ∀ r r', r < 10 ^ k → r' < 10 ^ k →
    padDigits k r = padDigits k r' → r = r' := by
  induction k with
  | zero =>
    intro r r' hr hr' _
    simp only [pow_zero] at hr hr'
    omega
  | succ k ih =>
    intro r r' hr hr' heq
    simp only [padDigits] at heq
    have hlen : (padDigits k (r / 10)).length = (padDigits k (r' / 10)).length := by
      rw [padDigits_length, padDigits_length]
    obtain ⟨h1, h2⟩ := List.append_inj heq hlen
    injection h2 with h2a
    have hp : (10 : Nat) ^ (k + 1) = 10 * 10 ^ k := by ring
    rw [hp] at hr hr'
    have hq := ih (r / 10) (r' / 10) (by omega) (by omega) h1
    have hm := decChar_inj (r % 10) (by omega) (r' % 10) (by omega) h2a
    omega

theorem asString_inj (l l' : List Char) (h : l.asString = l'.asString) : l = l' := by
  have h2 := congrArg String.data h
  simpa using h2

theorem workoutId_large (n : Nat) (h : 10 ^ 10 ≤ n) :
    workoutId n = (padDigits 10 (n % 10 ^ 10)).asString := by
  have hpos : 0 < (10 : Nat) ^ 10 := by norm_num
  have ha : 0 < n / 10 ^ 10 := Nat.div_pos h hpos
  have hmod : n % 10 ^ 10 < 10 ^ 10 := Nat.mod_lt _ hpos
  have hn : n = (n / 10 ^ 10) * 10 ^ 10 + n % 10 ^ 10 := by
    rw [Nat.mul_comm]
    exact (Nat.div_add_mod n (10 ^ 10)).symm
  have hdec : decDigits n = decDigits (n / 10 ^ 10) ++ padDigits 10 (n % 10 ^ 10) := by
    conv_lhs => rw [hn]
    exact decDigits_append 10 _ _ ha hmod
  unfold workoutId
  rw [hdec, List.length_append, padDigits_length]
  have hlen : (decDigits (n / 10 ^ 10)).length + 10 - 10 =
      (decDigits (n / 10 ^ 10)).length := by omega
  rw [hlen, List.drop_left]

/-- C9 counterexample: two distinct workouts (different distances) created in
the same millisecond receive the same id, refuting the claimed uniqueness. -/
theorem c9_same_timestamp_collision_counterexample :
    mkRunning sampleDate (.fin 40, .fin (-74)) (.fin 5) (.fin 30) (.fin 170) ≠
      mkRunning sampleDate (.fin 40, .fin (-74)) (.fin 8) (.fin 30) (.fin 170) ∧
    (mkRunning sampleDate (.fin 40, .fin (-74)) (.fin 5) (.fin 30) (.fin 170)).id =
      (mkRunning sampleDate (.fin 40, .fin (-74)) (.fin 8) (.fin 30) (.fin 170)).id := by
  constructor
  · decide
  · rfl

/-- C9 (amended): the id is the 10-character suffix of the decimal timestamp
string, so for realistic timestamps (at least `10 ^ 10` ms) two ids coincide
exactly when the creation timestamps agree modulo `10 ^ 10`; in particular
ids of workouts created at distinct milliseconds within that window are
distinct, while same-millisecond creations collide. -/
theorem c9_id_collision_iff (n m : Nat) (hn : 10 ^ 10 ≤ n) (hm : 10 ^ 10 ≤ m) :
    workoutId n = workoutId m ↔ n % 10 ^ 10 = m % 10 ^ 10 := by
  rw [workoutId_large n hn, workoutId_large m hm]
  constructor
  · intro h
    have hpos : 0 < (10 : Nat) ^ 10 := by norm_num
    exact padDigits_inj 10 _ _ (Nat.mod_lt _ hpos) (Nat.mod_lt _ hpos)
      (asString_inj _ _ h)
  · intro h
    rw [h]

/-- C9 witness: the collision criterion applied at a concrete timestamp. -/
theorem c9_id_collision_witness :
    workoutId 10000000000 = workoutId 10000000000 ↔
      10000000000 % 10 ^ 10 = 10000000000 % 10 ^ 10 :=
  c9_id_collision_iff 10000000000 10000000000 (by norm_num) (by norm_num)

/-! ## Entity model claims -/

/-- C5: for all valid inputs with distance, duration and cadence finite and
strictly positive, constructing a Running workout stores
`pace = duration / distance` (the very division the code performs), computed
at construction; on such inputs the division is the exact rational quotient. -/
theorem c5_running_pace (now : JsDate) (coords : JNum × JNum) (d t cad : JNum)
    (hdf : d.isFinite = true) (htf : t.isFinite = true)
    (hcf : cad.isFinite = true) (hdp : d.gtZero = true)
    (htp : t.gtZero = true) (hcp : cad.gtZero = true) :
    (mkRunning now coords d t cad).vdata = VariantData.running cad (jdiv t d) ∧
    ∀ dq tq : ℚ, d = .fin dq → t = .fin tq → jdiv t d = .fin (tq / dq) := by
  refine ⟨rfl, ?_⟩
  intro dq tq hd ht
  have hdq : 0 < dq := by
    rw [hd] at hdp
    simpa [JNum.gtZero] using hdp
  rw [hd, ht]
  simp only [jdiv]
  rw [if_neg (ne_of_gt hdq)]

/-- C5 witness: the spec scenario `distance = 5`, `duration = 30`,
`cadence = 170` gives pace exactly `6`. -/
theorem c5_running_pace_witness :
    (mkRunning sampleDate (.fin 40, .fin (-74)) (.fin 5) (.fin 30) (.fin 170)).vdata =
      VariantData.running (.fin 170) (jdiv (.fin 30) (.fin 5)) ∧
    jdiv (.fin 30) (.fin 5) = .fin 6 := by
  have h := c5_running_pace sampleDate (.fin 40, .fin (-74)) (.fin 5) (.fin 30)
    (.fin 170) (by decide) (by decide) (by decide) (by decide) (by decide)
    (by decide)
  refine ⟨h.1, ?_⟩
  rw [h.2 5 30 rfl rfl]
  norm_num

/-- C6: for all valid inputs with distance and duration finite and strictly
positive, constructing a Cycling workout stores
`speed = distance / (duration / 60)`, computed at construction; on such
inputs the divisions are the exact rational quotients. -/
theorem c6_cycling_speed (now : JsDate) (coords : JNum × JNum) (d t elev : JNum)
    (hdf : d.isFinite = true) (htf : t.isFinite = true)
    (hdp : d.gtZero = true) (htp : t.gtZero = true) :
    (mkCycling now coords d t elev).vdata =
      VariantData.cycling elev (jdiv d (jdiv t (.fin 60))) ∧
    ∀ dq tq : ℚ, d = .fin dq → t = .fin tq →
      jdiv d (jdiv t (.fin 60)) = .fin (dq / (tq / 60)) := by
  refine ⟨rfl, ?_⟩
  intro dq tq hd ht
  have htq : 0 < tq := by
    rw [ht] at htp
    simpa [JNum.gtZero] using htp
  rw [hd, ht]
  have h60 : jdiv (JNum.fin tq) (.fin 60) = .fin (tq / 60) := by
    simp only [jdiv]
    rw [if_neg (by norm_num)]
  rw [h60]
  simp only [jdiv]
  rw [if_neg (div_ne_zero (ne_of_gt htq) (by norm_num))]

/-- C6 witness: `distance = 30`, `duration = 60` gives speed exactly `30`. -/
theorem c6_cycling_speed_witness :
    (mkCycling sampleDate (.fin 40, .fin (-74)) (.fin 30) (.fin 60) (.fin 100)).vdata =
      VariantData.cycling (.fin 100) (jdiv (.fin 30) (jdiv (.fin 60) (.fin 60))) ∧
    jdiv (.fin 30) (jdiv (.fin 60) (.fin 60)) = .fin 30 := by
  have h := c6_cycling_speed sampleDate (.fin 40, .fin (-74)) (.fin 30) (.fin 60)
    (.fin 100) (by decide) (by decide) (by decide) (by decide)
  refine ⟨h.1, ?_⟩
  rw [h.2 30 60 rfl rfl]
  norm_num

theorem numToStr_head_ne_zero :
    ∀ n, n < 32 → 1 ≤ n → (numToStr n).data.head? ≠ some '0' := by
  decide

/-- C7: the description of a constructed workout is exactly
`"<CapitalizedVariant> on <Month> <Day>"` with the month name spelled out in
full and the day numeric without a leading zero, it is computed at
construction, and it is a deterministic function of the variant kind and the
creation date. -/
theorem c7_description (d : JsDate) (coords : JNum × JNum)
    (dist dur cad elev : JNum) :
    (mkRunning d coords dist dur cad).description =
      "Running on " ++ monthName d.month ++ " " ++ numToStr d.day ∧
    (mkCycling d coords dist dur elev).description =
      "Cycling on " ++ monthName d.month ++ " " ++ numToStr d.day ∧
    (∀ d' : JsDate, d'.month = d.month → d'.day = d.day →
      (mkRunning d' coords dist dur cad).description =
        (mkRunning d coords dist dur cad).description) ∧
    (1 ≤ d.day → d.day ≤ 31 → (numToStr d.day).data.head? ≠ some '0') := by
  refine ⟨rfl, rfl, ?_, ?_⟩
  · intro d' h1 h2
    simp only [mkRunning, setDescription, h1, h2]
  · intro h1 h2
    exact numToStr_head_ne_zero d.day (by omega) h1

/-- C7 witness: the sample date (July 14) yields `"Running on July 14"`, and
the day has no leading zero. -/
theorem c7_description_witness :
    (mkRunning sampleDate (.fin 40, .fin (-74)) (.fin 5) (.fin 30) (.fin 170)).description =
      "Running on July 14" ∧
    (numToStr sampleDate.day).data.head? ≠ some '0' := by
  have h := c7_description sampleDate (.fin 40, .fin (-74)) (.fin 5) (.fin 30)
    (.fin 170) (.fin 0)
  exact ⟨h.1.trans (by decide), h.2.2.2 (by decide) (by decide)⟩

/-! ## Interaction claims -/

/-- C8 counterexample: a UI selection that resolves to the sample workout
returns the collection unchanged — the entity's click counter stays `0`, so
it is not incremented by one as claimed. -/
theorem c8_selection_no_increment_counterexample :
    (moveToPopup [some sampleRun] (some "123")).2 = .ok (some sampleRun.coords) ∧
    (moveToPopup [some sampleRun] (some "123")).1 = [some sampleRun] ∧
    sampleRun.clicks = 0 ∧
    (moveToPopup [some sampleRun] (some "123")).1 ≠
      [some (Workout.click sampleRun)] := by
  refine ⟨rfl, rfl, rfl, ?_⟩
  intro h
  have h1 : some sampleRun = some (Workout.click sampleRun) := by
    injection h
  have h2 : sampleRun = Workout.click sampleRun := by
    injection h1
  have h3 := congrArg Workout.clicks h2
  simp [Workout.click] at h3

/-- C8 (amended): the `click` method increments the interaction counter by
exactly one and changes no other field, but the UI selection handler never
invokes it — `_moveToPopup` returns the collection unchanged, so selection
leaves every entity, including its counter, unmodified. -/
theorem c8_click_method_behavior (w : Workout) (ws : List (Option Workout))
    (target : Option String) :
    (Workout.click w).clicks = w.clicks + 1 ∧
    (Workout.click w).date = w.date ∧
    (Workout.click w).id = w.id ∧
    (Workout.click w).coords = w.coords ∧
    (Workout.click w).distance = w.distance ∧
    (Workout.click w).duration = w.duration ∧
    (Workout.click w).vdata = w.vdata ∧
    (Workout.click w).description = w.description ∧
    (moveToPopup ws target).1 = ws :=
  ⟨rfl, rfl, rfl, rfl, rfl, rfl, rfl, rfl, rfl⟩

theorem jsFind_not_found (ws : List (Option Workout)) (tid : String)
    (h : ∀ e ∈ ws, okEntry tid e = true) : jsFind ws tid = .ok none := by
  induction ws with
  | nil => rfl
  | cons e rest ih =>
    cases e with
    | none =>
      have hfalse := h none (List.mem_cons_self _ _)
      simp [okEntry] at hfalse
    | some w =>
      have hw := h (some w) (List.mem_cons_self _ _)
      simp only [okEntry, bne_iff_ne, ne_eq] at hw
      simp only [jsFind]
      rw [if_neg hw]
      exact ih (fun e he => h e (List.mem_cons_of_mem _ he))

/-- C4 counterexample: on a non-empty collection, the lookup of an absent id
does return not-found, but the interaction then throws a TypeError instead of
being a silent no-op. -/
theorem c4_absent_id_crash_counterexample :
    jsFind [some sampleRun] "zz" = .ok none ∧
    (moveToPopup [some sampleRun] (some "zz")).2 =
      .error "TypeError: Cannot read properties of undefined (reading coords)" :=
  ⟨rfl, rfl⟩

/-- C4 (amended): for every lookup of an id absent from a collection of
defined workouts, the find yields not-found and the handler then dereferences
the missing workout, throwing a TypeError — not a silent no-op — while a
click that hits no workout element at all is a silent no-op; the collection
itself is never modified. -/
theorem c4_absent_id_behavior (ws : List (Option Workout)) (tid : String)
    (h : ∀ e ∈ ws, okEntry tid e = true) :
    moveToPopup ws (some tid) =
      (ws, .error "TypeError: Cannot read properties of undefined (reading coords)") ∧
    moveToPopup ws none = (ws, .ok none) := by
  constructor
  · have hf := jsFind_not_found ws tid h
    simp only [moveToPopup, hf]
  · rfl

/-- C4 witness: the amended behavior at a concrete collection and id. -/
theorem c4_absent_id_witness :
    moveToPopup [some sampleRun] (some "zz") =
      ([some sampleRun],
       .error "TypeError: Cannot read properties of undefined (reading coords)") :=
  (c4_absent_id_behavior [some sampleRun] "zz" (by decide)).1

/-! ## Persistence claims -/

/-- C2 counterexample: unparsable stored content makes load propagate an
uncaught SyntaxError instead of treating the store as empty. -/
theorem c2_unparsable_throws_counterexample :
    getLocalStorage (some (.malformed "oops")) =
      .error ("SyntaxError: Unexpected token in JSON: " ++ "oops") ∧
    getLocalStorage (some (.malformed "oops")) ≠ .ok [] := by
  refine ⟨rfl, ?_⟩
  intro h
  exact Except.noConfusion h

/-- C2 (amended): a missing key, or stored content parsing to a falsy value,
makes load yield no records; but unparsable content raises an uncaught parse
error rather than being treated as empty, and truthy content that is not an
array raises an iteration error — in no case does load produce a partial
per-record reconstruction. -/
theorem c2_load_empty_or_error :
    getLocalStorage none = .ok [] ∧
    (∀ s, getLocalStorage (some (.malformed s)) =
      .error ("SyntaxError: Unexpected token in JSON: " ++ s)) ∧
    (∀ j, falsy j = true → getLocalStorage (some (.wellFormed j)) = .ok []) ∧
    (∀ j, falsy j = false → (∀ l, j ≠ .arr l) →
      getLocalStorage (some (.wellFormed j)) =
        .error "TypeError: data.forEach is not a function") := by
  refine ⟨rfl, fun s => rfl, ?_, ?_⟩
  · intro j hj
    simp only [getLocalStorage, jsonParse]
    rw [if_pos hj]
  · intro j hj hnotarr
    cases j with
    | null => simp [falsy] at hj
    | bool b =>
      simp only [getLocalStorage, jsonParse]
      rw [if_neg (by simp [hj])]
    | num q =>
      simp only [getLocalStorage, jsonParse]
      rw [if_neg (by simp [hj])]
    | str s =>
      simp only [getLocalStorage, jsonParse]
      rw [if_neg (by simp [hj])]
    | arr l => exact absurd rfl (hnotarr l)
    | obj f =>
      simp only [getLocalStorage, jsonParse]
      rw [if_neg (by simp [hj])]

/-- C2 witness: the amended behavior at concrete stored contents. -/
theorem c2_load_witness :
    getLocalStorage (some (.malformed "x")) =
      .error ("SyntaxError: Unexpected token in JSON: " ++ "x") ∧
    getLocalStorage (some (.wellFormed (.num 0))) = .ok [] :=
  ⟨c2_load_empty_or_error.2.1 "x",
   c2_load_empty_or_error.2.2.1 (.num 0) rfl⟩

/-! ## New-workout handler claims -/

/-- C3: for every form submission of the two selectable variant types, the
handler rejects (alert and early return) unless every numeric field is a
finite number and every field except elevation gain is strictly positive; on
rejection no entity is constructed, the collection is not mutated and the
persisted store is not written. -/
theorem c3_validation_rejects (now : JsDate) (lat lng : JNum)
    (ws : List (Option Workout)) (st : Option StoreVal) (inp : FormInput)
    (hty : inp.ty = "running" ∨ inp.ty = "cycling")
    (hbad : ¬ (inp.distance.isFinite = true ∧ inp.duration.isFinite = true ∧
      inp.distance.gtZero = true ∧ inp.duration.gtZero = true ∧
      (inp.ty = "running" →
        inp.cadence.isFinite = true ∧ inp.cadence.gtZero = true) ∧
      (inp.ty = "cycling" → inp.elevation.isFinite = true))) :
    newWorkout now lat lng ws st inp = ⟨ws, st, true, none⟩ := by
  rcases hty with hty | hty
  · simp only [newWorkout, hty]
    rw [if_pos trivial]
    cases hcond : (!validInputs [inp.distance, inp.duration, inp.cadence] ||
        !allPositive [inp.distance, inp.duration, inp.cadence]) with
    | true => rfl
    | false =>
      exfalso
      apply hbad
      simp only [validInputs, allPositive, List.all_cons, List.all_nil,
        Bool.and_true, Bool.or_eq_false_iff, Bool.not_eq_false',
        Bool.and_eq_true] at hcond
      obtain ⟨⟨hdf, htf, hcf⟩, hdp, htp, hcp⟩ := hcond
      refine ⟨hdf, htf, hdp, htp, fun _ => ⟨hcf, hcp⟩, fun hc => ?_⟩
      rw [hty] at hc
      exact absurd hc (by decide)
  · simp only [newWorkout, hty]
    rw [if_neg (by decide : ¬("cycling" : String) = "running"), if_pos trivial]
    cases hcond : (!validInputs [inp.distance, inp.duration, inp.elevation] ||
        !allPositive [inp.distance, inp.duration]) with
    | true => rfl
    | false =>
      exfalso
      apply hbad
      simp only [validInputs, allPositive, List.all_cons, List.all_nil,
        Bool.and_true, Bool.or_eq_false_iff, Bool.not_eq_false',
        Bool.and_eq_true] at hcond
      obtain ⟨⟨hdf, htf, hef⟩, hdp, htp⟩ := hcond
      refine ⟨hdf, htf, hdp, htp, fun hc => ?_, fun _ => hef⟩
      rw [hty] at hc
      exact absurd hc (by decide)

/-- C3 witness: a running submission with `distance = NaN` is rejected with
no change to the collection or the store. -/
theorem c3_validation_witness :
    newWorkout sampleDate (.fin 0) (.fin 0) [] none
      ⟨"running", .nan, .fin 30, .fin 170, .fin 0⟩ = ⟨[], none, true, none⟩ :=
  c3_validation_rejects sampleDate (.fin 0) (.fin 0) [] none
    ⟨"running", .nan, .fin 30, .fin 170, .fin 0⟩ (Or.inl rfl) (by decide)

/-- C10 counterexample: a submission with variant type "walking" appends an
undefined entry and then throws while rendering the marker, so — contrary to
the claim — the collection is NOT serialised: the store stays unwritten. -/
theorem c10_no_serialize_counterexample :
    newWorkout sampleDate (.fin 0) (.fin 0) [] none
      ⟨"walking", .nan, .nan, .nan, .nan⟩ =
      ⟨[none], none, false,
       some "TypeError: Cannot read properties of undefined (reading coords)"⟩ ∧
    (newWorkout sampleDate (.fin 0) (.fin 0) [] none
      ⟨"walking", .nan, .nan, .nan, .nan⟩).storage ≠
      some (setLocalStorage [none]) := by
  refine ⟨rfl, ?_⟩
  intro h
  exact Option.noConfusion h

/-- C10 (amended): for every form submission whose variant type is neither
"running" nor "cycling", the handler performs no validation and constructs no
entity, appends an undefined entry to the collection, and then throws a
TypeError while rendering that entry's marker, aborting before the store
write: the persisted store is not updated. -/
theorem c10_unknown_type_behavior (now : JsDate) (lat lng : JNum)
    (ws : List (Option Workout)) (st : Option StoreVal) (inp : FormInput)
    (h1 : inp.ty ≠ "running") (h2 : inp.ty ≠ "cycling") :
    newWorkout now lat lng ws st inp =
      ⟨ws ++ [none], st, false,
       some "TypeError: Cannot read properties of undefined (reading coords)"⟩ := by
  simp only [newWorkout]
  rw [if_neg h1, if_neg h2]

/-- C10 witness: the amended behavior at a concrete unknown-type submission. -/
theorem c10_unknown_type_witness :
    newWorkout sampleDate (.fin 1) (.fin 2) [] none
      ⟨"hiking", .fin 3, .fin 4, .fin 5, .fin 6⟩ =
      ⟨[none], none, false,
       some "TypeError: Cannot read properties of undefined (reading coords)"⟩ :=
  c10_unknown_type_behavior sampleDate (.fin 1) (.fin 2) [] none
    ⟨"hiking", .fin 3, .fin 4, .fin 5, .fin 6⟩ (by decide) (by decide)

/-! ## Round-trip claim -/

theorem renderLoaded_encode (w : Workout) (h : derivedFinite w = true) :
    renderLoaded (encodeWorkout w) = .ok () := by
  obtain ⟨date, id, clicks, coords, dist, dur, vdata, descr⟩ := w
  cases vdata with
  | running cad pace =>
    cases pace with
    | fin q => rfl
    | nan => simp [derivedFinite, JNum.isFinite] at h
    | posInf => simp [derivedFinite, JNum.isFinite] at h
    | negInf => simp [derivedFinite, JNum.isFinite] at h
  | cycling elev speed =>
    cases speed with
    | fin q => rfl
    | nan => simp [derivedFinite, JNum.isFinite] at h
    | posInf => simp [derivedFinite, JNum.isFinite] at h
    | negInf => simp [derivedFinite, JNum.isFinite] at h

theorem renderAll_encode (ws : List Workout)
    (h : ∀ w ∈ ws, derivedFinite w = true) :
    renderAll (ws.map encodeWorkout) = .ok () := by
  induction ws with
  | nil => rfl
  | cons w rest ih =>
    simp only [List.map_cons, renderAll]
    rw [renderLoaded_encode w (h w (List.mem_cons_self _ _))]
    exact ih (fun x hx => h x (List.mem_cons_of_mem _ hx))

/-- C1 (amended): saving a collection of workouts whose derived metric is a
finite number and then loading yields, for each record, the plain object
whose every field except `date` holds exactly the saved value — in
particular the derived `pace`/`speed` is returned exactly as stored, never
recomputed from distance and duration, so an externally tampered derived
value survives the round-trip — while `date` is returned as the ISO string
of the saved `Date` object. -/
theorem c1_roundtrip_preserves_fields_except_date (ws : List Workout)
    (h : ∀ w ∈ ws, derivedFinite w = true) :
    getLocalStorage (some (setLocalStorage (ws.map some))) =
      .ok (ws.map encodeWorkout) ∧
    ∀ w ∈ ws,
      objGet "id" (encodeWorkout w) = some (.str w.id) ∧
      objGet "clicks" (encodeWorkout w) = some (.num (w.clicks : ℚ)) ∧
      objGet "coords" (encodeWorkout w) =
        some (.arr [encodeJNum w.coords.1, encodeJNum w.coords.2]) ∧
      objGet "distance" (encodeWorkout w) = some (encodeJNum w.distance) ∧
      objGet "duration" (encodeWorkout w) = some (encodeJNum w.duration) ∧
      objGet "type" (encodeWorkout w) = some (.str (typeStr w.vdata)) ∧
      (∀ cad pace, w.vdata = .running cad pace →
        objGet "cadence" (encodeWorkout w) = some (encodeJNum cad) ∧
        objGet "pace" (encodeWorkout w) = some (encodeJNum pace)) ∧
      (∀ elev speed, w.vdata = .cycling elev speed →
        objGet "elevationGain" (encodeWorkout w) = some (encodeJNum elev) ∧
        objGet "speed" (encodeWorkout w) = some (encodeJNum speed)) ∧
      objGet "description" (encodeWorkout w) = some (.str w.description) ∧
      objGet "date" (encodeWorkout w) = some (.str w.date.iso) := by
  constructor
  · have hmap : (ws.map some).map encodeEntry = ws.map encodeWorkout := by
      rw [List.map_map]
      rfl
    simp only [getLocalStorage, setLocalStorage, jsonParse, hmap]
    rw [if_neg (by simp [falsy]), renderAll_encode ws h]
  · intro w hw
    obtain ⟨date, id, clicks, coords, dist, dur, vdata, descr⟩ := w
    cases vdata with
    | running cad pace =>
      refine ⟨rfl, rfl, rfl, rfl, rfl, rfl, ?_, ?_, rfl, rfl⟩
      · intro c p hcp
        injection hcp with hc hp
        subst hc
        subst hp
        exact ⟨rfl, rfl⟩
      · intro e s hes
        exact VariantData.noConfusion hes
    | cycling elev speed =>
      refine ⟨rfl, rfl, rfl, rfl, rfl, rfl, ?_, ?_, rfl, rfl⟩
      · intro c p hcp
        exact VariantData.noConfusion hcp
      · intro e s hes
        injection hes with he hs
        subst he
        subst hs
        exact ⟨rfl, rfl⟩

/-- C1 counterexample: the loaded record's `date` field is the ISO string of
the saved `Date`, not the `Date` value the saved record held, so the loaded
record is not equal to the saved one field-for-field. -/
theorem c1_date_not_preserved_counterexample :
    getLocalStorage (some (setLocalStorage [some sampleRun])) =
      .ok [encodeWorkout sampleRun] ∧
    objGet "date" (encodeWorkout sampleRun) = some (.str sampleRun.date.iso) ∧
    Js.toVal (.str sampleRun.date.iso) ≠ JsVal.date sampleRun.date := by
  refine ⟨rfl, rfl, ?_⟩
  intro h
  simp only [Js.toVal] at h
  exact JsVal.noConfusion h

/-- C1 witness: a record whose derived pace was tampered to `999` before
saving is loaded with the tampered value unchanged. -/
theorem c1_roundtrip_witness :
    getLocalStorage (some (setLocalStorage ([tamperedRun].map some))) =
      .ok ([tamperedRun].map encodeWorkout) ∧
    objGet "pace" (encodeWorkout tamperedRun) = some (.num 999) := by
  have h := c1_roundtrip_preserves_fields_except_date [tamperedRun]
    (by
      intro w hw
      rw [List.mem_singleton] at hw
      subst hw
      decide)
  refine ⟨h.1, ?_⟩
  have h2 := h.2 tamperedRun (List.mem_singleton.mpr rfl)
  exact (h2.2.2.2.2.2.2.1 (.fin 170) (.fin 999) rfl).2
